import Mathlib

/-!
Shallow embedding of `src/scripts/filter_advisories.py` (class `AdvisoryFilter`).

Conventions of the embedding:
* Python strings are `String`; `str.lower()` is `lowerStr` (character-wise
  `Char.toLower`, adequate for the ASCII data the script handles),
  `str.strip()` is `stripStr`.
* Python floats (`cvssScore`, `min_cvss`) are modelled as `Rat`; only the
  order comparison `<` is used by the code.
* `dict.get(key, default)` on configuration sections is modelled by `Option`
  fields read with `Option.getD`.
* A Python `dict` built by indexed assignment is an association list with
  replace-or-append update (`dictSet`); insertion order is iteration order,
  as in CPython.  A Python `set` of keywords is a duplicate-free list built
  by `setAdd` (first-insertion order chosen as its linearization; no claim
  depends on set iteration order, only on membership and cardinality).
* A compiled regex (`re.compile(p, re.IGNORECASE)`) is opaque to the claims
  about it, so compilation is a parameter
  `compile : String → Option (String → Bool)` returning the `search`
  function of the compiled pattern, `none` on `re.error`.
* The regexes that the code itself builds in `_match_keywords`
  (`^[\w]+$` and `\b<escaped keyword>\b`) are expanded to their meaning:
  `isPureWord` and `hasWordBoundaryMatch`.
* `stderr` diagnostics are ignored (pure embedding).
-/

/-- `[\w]` character class of Python `re` (restricted to ASCII): letter,
digit or underscore. -/
def isWordChar (c : Char) : Bool := c.isAlphanum || c == '_'

/-- Python `str.lower()`: character-wise lower-casing. -/
def lowerStr (s : String) : String := ⟨s.data.map Char.toLower⟩

/-- Leading and trailing whitespace removal on a character list. -/
def stripChars (l : List Char) : List Char :=
  ((l.dropWhile Char.isWhitespace).reverse.dropWhile Char.isWhitespace).reverse

/-- Python `str.strip()`. -/
def stripStr (s : String) : String := ⟨stripChars s.data⟩

/-- `keyword.strip().lower()` from `_extract_keywords`. -/
def normalizeKeyword (k : String) : String := lowerStr (stripStr k)

/-- `needle` occurs in `hay` starting at index `i`. -/
def occursAt (needle hay : List Char) (i : Nat) : Bool :=
  decide ((hay.drop i).take needle.length = needle)

/-- Python `needle in hay` (plain substring containment; the empty needle
is contained in every string, as in Python). -/
def substrContains (hay needle : String) : Bool :=
  (List.range (hay.data.length + 1)).any (fun i => occursAt needle.data hay.data i)

/-- An occurrence of `kw` at index `i` of `hay` with word boundaries on both
sides, for a keyword made of word characters: the previous and the next
character (when they exist) are not word characters. -/
def wordTokenAt (kw hay : List Char) (i : Nat) : Bool :=
  occursAt kw hay i
    && (decide (i = 0) || !(isWordChar (hay.getD (i - 1) ' ')))
    && (decide (hay.length ≤ i + kw.length) || !(isWordChar (hay.getD (i + kw.length) ' ')))

/-- `re.search(r'\b' + re.escape(kw) + r'\b', hay)` for a keyword `kw`
consisting of word characters. -/
def hasWordBoundaryMatch (kw hay : String) : Bool :=
  (List.range (hay.data.length + 1)).any (fun i => wordTokenAt kw.data hay.data i)

/-- `re.match(r'^[\w]+$', kw)`: non-empty and made of word characters only.
(Normalized keywords are stripped, so the trailing-newline quirk of `$`
cannot arise.) -/
def isPureWord (kw : String) : Bool := !kw.data.isEmpty && kw.data.all isWordChar

/-- Advisory record; absent optional fields are their `advisory.get(...)`
defaults (empty string, empty list, zero score). -/
structure Advisory where
  id : String
  description : String
  summary : String
  title : String
  references : List String
  severity : String
  cvssScore : Rat
  url : String
  publishedDate : String
deriving DecidableEq

/-- One entry of `config['categories']`: optional display name and raw
keyword list. -/
structure CategoryData where
  name : Option String
  keywords : List String
deriving DecidableEq

/-- One entry of `config['regex_patterns']['patterns']`. -/
structure PatternConfig where
  pattern : String
  description : Option String
deriving DecidableEq

/-- `config['regex_patterns']`. -/
structure RegexPatternsConfig where
  enabled : Bool
  patterns : List PatternConfig

/-- `config['severity']`; `min_cvss` and `levels` are read with defaults
`0.0` and `['critical', 'high', 'medium', 'low']`. -/
structure SeverityConfig where
  enabled : Bool
  min_cvss : Option Rat
  levels : Option (List String)

/-- `config['ranking']['weights']`; each weight is read with its default
(10, 5, 7, 15, 10, 5). -/
structure Weights where
  exact_match : Option Int
  category_match : Option Int
  regex_match : Option Int
  severity_critical : Option Int
  severity_high : Option Int
  severity_medium : Option Int

/-- `config['ranking']`; `max_results` is read with default 20. -/
structure RankingConfig where
  enabled : Bool
  weights : Weights
  max_results : Option Int

/-- The parsed configuration mapping.  `categories` is an ordered list of
`(category_id, data)` pairs (Python dict iteration order); YAML mapping
keys, hence category ids, are unique. -/
structure Config where
  categories : List (String × CategoryData)
  regex_patterns : RegexPatternsConfig
  severity : SeverityConfig
  ranking : RankingConfig

/-- Entry of `self.regex_patterns`: the compiled pattern is carried as its
`search` function (field `pattern` in the source dict), with the
description and the original pattern string. -/
structure PatternInfo where
  pattern : String → Bool
  description : String
  original : String

/-- Entry of the `matched_patterns` list. -/
structure MatchedPattern where
  description : String
  pattern : String
deriving DecidableEq

/-- The `matches` dict built by `filter_advisory`. -/
structure Matches where
  matched_keywords : List (String × List String)
  matched_categories : List String
  matched_patterns : List MatchedPattern
deriving DecidableEq

/-- A scored result returned by `filter_advisory` (the source dict key
`matches` is a reserved word in Lean, hence `matchResult`). -/
structure Result where
  advisory : Advisory
  matchResult : Matches
  relevance_score : Int
deriving DecidableEq

/-- Python `set.add` on the list linearization of a set: append if absent. -/
def setAdd (s : List String) (x : String) : List String :=
  if x ∈ s then s else s ++ [x]

/-- Python dict indexed assignment `d[k] = v`: replace the value at an
existing key in place, else append. -/
def dictSet (d : List (String × List String)) (k : String) (v : List String) :
    List (String × List String) :=
  if d.any (fun kv => kv.1 == k) then
    d.map (fun kv => if kv.1 == k then (k, v) else kv)
  else d ++ [(k, v)]

/-- Lookup with default, `d.get(k, dflt)`. -/
def lookupD {α : Type} (d : List (String × α)) (k : String) (dflt : α) : α :=
  match d.find? (fun kv => kv.1 == k) with
  | some kv => kv.2
  | none => dflt

/-- `AdvisoryFilter._extract_keywords`: per category, the set of normalized
keywords. -/
def extractKeywords (config : Config) : List (String × List String) :=
  config.categories.map (fun cat =>
    (cat.1, cat.2.keywords.foldl (fun s k => setAdd s (normalizeKeyword k)) []))

/-- `AdvisoryFilter._compile_regex_patterns`: nothing when `enabled` is
false; otherwise each pattern that compiles is kept (with description
defaulted to `""` and the original source string) and each `re.error` is
skipped. -/
def compileRegexPatterns (compile : String → Option (String → Bool)) (config : Config) :
    List PatternInfo :=
  if !config.regex_patterns.enabled then []
  else
    config.regex_patterns.patterns.foldl (fun patterns pc =>
      match compile pc.pattern with
      | some s => patterns ++ [⟨s, pc.description.getD "", pc.pattern⟩]
      | none => patterns) []

/-- The filter object: configuration plus the two initialized stores. -/
structure AdvisoryFilter where
  config : Config
  keywords : List (String × List String)
  regex_patterns : List PatternInfo

/-- `AdvisoryFilter.__init__` (configuration already parsed). -/
def mkAdvisoryFilter (compile : String → Option (String → Bool)) (config : Config) :
    AdvisoryFilter :=
  { config := config
    keywords := extractKeywords config
    regex_patterns := compileRegexPatterns compile config }

/-- `AdvisoryFilter._check_severity`. -/
def checkSeverity (flt : AdvisoryFilter) (advisory : Advisory) : Bool :=
  if !flt.config.severity.enabled then true
  else
    let min_cvss := flt.config.severity.min_cvss.getD 0
    let allowed_levels := flt.config.severity.levels.getD ["critical", "high", "medium", "low"]
    if advisory.cvssScore < min_cvss then false
    else
      let severity := lowerStr advisory.severity
      if decide (severity ≠ "") && !(decide (severity ∈ allowed_levels.map lowerStr)) then false
      else true

/-- The per-keyword condition of the loop body of
`AdvisoryFilter._match_keywords`: word-boundary search for purely
alphanumeric keywords, substring containment otherwise. -/
def keywordMatches (text_lower : String) (kw : String) : Bool :=
  if isPureWord kw then hasWordBoundaryMatch kw text_lower
  else substrContains text_lower kw

/-- `AdvisoryFilter._match_keywords`. -/
def matchKeywords (flt : AdvisoryFilter) (text : String) (category_id : String) : List String :=
  let category_keywords := lookupD flt.keywords category_id []
  let text_lower := lowerStr text
  category_keywords.foldl (fun matched keyword =>
    if keywordMatches text_lower keyword then matched ++ [keyword] else matched) []

/-- `AdvisoryFilter._match_regex_patterns`. -/
def matchRegexPatterns (flt : AdvisoryFilter) (text : String) : List MatchedPattern :=
  flt.regex_patterns.foldl (fun matched pinfo =>
    if pinfo.pattern text then matched ++ [⟨pinfo.description, pinfo.original⟩]
    else matched) []

/-- `AdvisoryFilter._calculate_relevance_score`. -/
def calculateRelevanceScore (flt : AdvisoryFilter) (matchResult : Matches) (advisory : Advisory) :
    Int :=
  if !flt.config.ranking.enabled then 1
  else
    let weights := flt.config.ranking.weights
    let total_keyword_matches : Nat :=
      ((matchResult.matched_keywords.map (fun kv => kv.2.length)).sum)
    let base : Int :=
      0 + (total_keyword_matches : Int) * weights.exact_match.getD 10
        + (matchResult.matched_categories.length : Int) * weights.category_match.getD 5
        + (matchResult.matched_patterns.length : Int) * weights.regex_match.getD 7
    let severity := lowerStr advisory.severity
    if severity = "critical" then base + weights.severity_critical.getD 15
    else if severity = "high" then base + weights.severity_high.getD 10
    else if severity = "medium" then base + weights.severity_medium.getD 5
    else base

/-- The `searchable_text` of `filter_advisory`. -/
def searchableText (advisory : Advisory) : String :=
  String.intercalate " "
    [advisory.id, advisory.description, advisory.summary, advisory.title,
      String.intercalate " " advisory.references]

/-- Body of the category loop of `filter_advisory`, acting on the pair
`(matched_keywords, matched_categories)`. -/
def categoryStep (flt : AdvisoryFilter) (text : String)
    (acc : List (String × List String) × List String) (cat : String × CategoryData) :
    List (String × List String) × List String :=
  let category_name := cat.2.name.getD cat.1
  let keywords := matchKeywords flt text cat.1
  if keywords.isEmpty then acc
  else (dictSet acc.1 category_name keywords, acc.2 ++ [category_name])

/-- The category loop of `filter_advisory`. -/
def matchCategories (flt : AdvisoryFilter) (text : String) :
    List (String × List String) × List String :=
  flt.config.categories.foldl (categoryStep flt text) ([], [])

/-- `AdvisoryFilter.filter_advisory`; `none` is Python's `None`. -/
def filterAdvisory (flt : AdvisoryFilter) (advisory : Advisory) : Option Result :=
  if !(checkSeverity flt advisory) then none
  else
    let searchable_text := searchableText advisory
    let mk_mc := matchCategories flt searchable_text
    let matched_patterns := matchRegexPatterns flt searchable_text
    if mk_mc.1.isEmpty && matched_patterns.isEmpty then none
    else
      let matchResult : Matches := ⟨mk_mc.1, mk_mc.2, matched_patterns⟩
      some ⟨advisory, matchResult, calculateRelevanceScore flt matchResult advisory⟩

/-- The collection loop of `filter_advisories` (`if result:` is true exactly
when `filter_advisory` returned a dict, which is never empty). -/
def collectResults (flt : AdvisoryFilter) (advisories : List Advisory) : List Result :=
  advisories.foldl (fun filtered advisory =>
    match filterAdvisory flt advisory with
    | some result => filtered ++ [result]
    | none => filtered) []

/-- One step of the stable descending insertion sort: insert `x` before the
first element whose score is not greater than `x`'s. -/
def insertByScore (x : Result) : List Result → List Result
  | [] => [x]
  | y :: ys =>
    if y.relevance_score ≤ x.relevance_score then x :: y :: ys
    else y :: insertByScore x ys

/-- `filtered.sort(key=lambda x: x['relevance_score'], reverse=True)`:
Python's sort is stable, and a stable sort by a key is extensionally
unique, so any stable descending sort is a faithful model; this is the
standard insertion sort. -/
def sortByScoreDesc (l : List Result) : List Result := l.foldr insertByScore []

/-- Python slice `l[:m]` for an `int` `m`: the first `m` elements when
`m ≥ 0`, all but the last `-m` elements when `m < 0`. -/
def pySliceTo (m : Int) (l : List Result) : List Result :=
  if 0 ≤ m then l.take m.toNat else l.take ((l.length : Int) + m).toNat

/-- `AdvisoryFilter.filter_advisories`: collect, sort by score descending
(stable), truncate to `ranking.max_results` (default 20). -/
def filterAdvisories (flt : AdvisoryFilter) (advisories : List Advisory) : List Result :=
  pySliceTo (flt.config.ranking.max_results.getD 20)
    (sortByScoreDesc (collectResults flt advisories))

/-! Concrete instances used by the witnesses and counterexamples below. -/

/-- A compile oracle under which no pattern compiles (the concrete
configurations below carry no regex patterns). -/
def compileNone : String → Option (String → Bool) := fun _ => none

/-- A weight mapping with every key absent: all defaults apply. -/
def wNone : Weights := ⟨none, none, none, none, none, none⟩

/-- A disabled `regex_patterns` section. -/
def regexOff : RegexPatternsConfig := ⟨false, []⟩

/-- Configuration with severity filtering and ranking enabled, every
threshold and weight left to its default. -/
def cfg1 : Config := ⟨[], regexOff, ⟨true, none, none⟩, ⟨true, wNone, none⟩⟩

def flt1 : AdvisoryFilter := mkAdvisoryFilter compileNone cfg1

/-- Advisory with a severity level outside the default allowed set. -/
def a1 : Advisory := ⟨"CVE-0001", "", "", "", [], "banana", 5, "", ""⟩

/-- Configuration with a purely alphanumeric keyword and a punctuated one. -/
def cfg2 : Config :=
  ⟨[("logging", ⟨some "Logging", ["log4j"]⟩), ("framework", ⟨some "Framework", ["apache-struts"]⟩)],
    regexOff, ⟨false, none, none⟩, ⟨true, wNone, none⟩⟩

def flt2 : AdvisoryFilter := mkAdvisoryFilter compileNone cfg2

/-- Advisory whose searchable text contains `uses log4j2-core`. -/
def a2 : Advisory := ⟨"", "uses log4j2-core", "", "", [], "", 0, "", ""⟩

/-- Configuration with one keyword that is empty after normalization. -/
def cfg3 : Config :=
  ⟨[("c", ⟨none, ["   "]⟩)], regexOff, ⟨false, none, none⟩, ⟨true, wNone, none⟩⟩

def flt3 : AdvisoryFilter := mkAdvisoryFilter compileNone cfg3

/-- The scenario of the spec: one `injection` category, a critical advisory
matching the `sql injection` keyword, default weights. -/
def cfg5 : Config :=
  ⟨[("injection", ⟨some "Injection", ["sql injection", "xss"]⟩)], regexOff,
    ⟨true, none, none⟩, ⟨true, wNone, none⟩⟩

def flt5 : AdvisoryFilter := mkAdvisoryFilter compileNone cfg5

def a5 : Advisory :=
  ⟨"CVE-2024-0001", "SQL Injection vulnerability in widget", "", "", [], "critical", 9, "", ""⟩

/-- The match structure `filter_advisory` produces for `a5` under `cfg5`. -/
def m5 : Matches := ⟨[("Injection", ["sql injection"])], ["Injection"], []⟩

/-- The scored result `filter_advisory` produces for `a5` under `cfg5`. -/
def r5 : Result := ⟨a5, m5, 30⟩

/-- `cfg5` with a positive explicit `max_results`. -/
def cfg5c : Config :=
  ⟨[("injection", ⟨some "Injection", ["sql injection", "xss"]⟩)], regexOff,
    ⟨true, none, none⟩, ⟨true, wNone, some 3⟩⟩

def flt5c : AdvisoryFilter := mkAdvisoryFilter compileNone cfg5c

/-- Configuration with a negative `max_results`. -/
def cfg7 : Config :=
  ⟨[("c", ⟨none, ["alpha"]⟩)], regexOff, ⟨false, none, none⟩, ⟨false, wNone, some (-1)⟩⟩

def flt7 : AdvisoryFilter := mkAdvisoryFilter compileNone cfg7

def a7a : Advisory := ⟨"A-1", "alpha one", "", "", [], "", 0, "", ""⟩

def a7b : Advisory := ⟨"A-2", "alpha two", "", "", [], "", 0, "", ""⟩

def advs7 : List Advisory := [a7a, a7b]

/-- Configuration in which two distinct categories share the display name
`Web`. -/
def cfg8 : Config :=
  ⟨[("c1", ⟨some "Web", ["alpha"]⟩), ("c2", ⟨some "Web", ["beta"]⟩)], regexOff,
    ⟨false, none, none⟩, ⟨false, wNone, none⟩⟩

def flt8 : AdvisoryFilter := mkAdvisoryFilter compileNone cfg8

/-- Advisory matching both categories of `cfg8`. -/
def a8 : Advisory := ⟨"B-1", "alpha beta", "", "", [], "", 0, "", ""⟩

/-! Helper lemmas about the embedding. -/

/-- Lower-casing a string yields the empty string exactly for the empty
string. -/
theorem lowerStr_eq_empty {s : String} : lowerStr s = "" ↔ s = "" := by
  cases s with
  | mk data =>
    have h0 : ("" : String).data = [] := rfl
    rw [String.ext_iff, String.ext_iff]
    show data.map Char.toLower = ("" : String).data ↔ data = ("" : String).data
    rw [h0]
    exact List.map_eq_nil_iff

/-- The empty needle is a substring of every string. -/
theorem substrContains_empty (hay : String) : substrContains hay "" = true := by
  unfold substrContains
  refine List.any_eq_true.mpr ⟨0, List.mem_range.mpr (Nat.succ_pos _), ?_⟩
  simp [occursAt]

/-- The keyword loop of `_match_keywords` collects exactly the keywords
satisfying the per-keyword condition, in iteration order. -/
theorem matchKeywords_loop_eq (tl : String) :
    ∀ (l : List String) (acc : List String),
      l.foldl (fun matched keyword =>
          if keywordMatches tl keyword then matched ++ [keyword] else matched) acc
        = acc ++ l.filter (keywordMatches tl) := by
  intro l
  induction l with
  | nil => intro acc; simp
  | cons k ks ih =>
    intro acc
    simp only [List.foldl_cons, List.filter_cons]
    cases hk : keywordMatches tl k with
    | false => simp [hk, ih]
    | true => simp [hk, ih]

/-- `_match_keywords` filters the category's normalized keyword set by the
matching condition. -/
theorem matchKeywords_eq_filter (flt : AdvisoryFilter) (text : String) (cid : String) :
    matchKeywords flt text cid
      = (lookupD flt.keywords cid []).filter (keywordMatches (lowerStr text)) := by
  unfold matchKeywords
  simpa using matchKeywords_loop_eq (lowerStr text) (lookupD flt.keywords cid []) []

/-- The category loop of `filter_advisory` appends, in configuration order,
the display name of every category with a non-empty keyword match. -/
theorem categoryLoop_snd (flt : AdvisoryFilter) (text : String) :
    ∀ (cats : List (String × CategoryData)) (acc : List (String × List String) × List String),
      (cats.foldl (categoryStep flt text) acc).2
        = acc.2 ++ (cats.filter (fun cat => !(matchKeywords flt text cat.1).isEmpty)).map
            (fun cat => cat.2.name.getD cat.1) := by
  intro cats
  induction cats with
  | nil => intro acc; simp
  | cons c cs ih =>
    intro acc
    simp only [List.foldl_cons, List.filter_cons]
    cases hk : (matchKeywords flt text c.1).isEmpty with
    | true => simp [categoryStep, hk, ih]
    | false => simp [categoryStep, hk, ih]

/-- The collection loop of `filter_advisories` is `filterMap` in input
order. -/
theorem collectResults_loop_eq (flt : AdvisoryFilter) :
    ∀ (advs : List Advisory) (acc : List Result),
      advs.foldl (fun filtered advisory =>
          match filterAdvisory flt advisory with
          | some result => filtered ++ [result]
          | none => filtered) acc
        = acc ++ advs.filterMap (filterAdvisory flt) := by
  intro advs
  induction advs with
  | nil => intro acc; simp
  | cons a as ih =>
    intro acc
    simp only [List.foldl_cons, List.filterMap_cons]
    cases hfa : filterAdvisory flt a with
    | none => simp [hfa, ih]
    | some r => simp [hfa, ih]

theorem collectResults_eq (flt : AdvisoryFilter) (advs : List Advisory) :
    collectResults flt advs = advs.filterMap (filterAdvisory flt) := by
  unfold collectResults
  simpa using collectResults_loop_eq flt advs []

/-- Membership through one insertion step of the sort. -/
theorem mem_insertByScore {x y : Result} :
    ∀ {l : List Result}, y ∈ insertByScore x l ↔ y = x ∨ y ∈ l := by
  intro l
  induction l with
  | nil => simp [insertByScore]
  | cons z zs ih =>
    simp only [insertByScore]
    split
    · simp [List.mem_cons]
    · simp only [List.mem_cons, ih]
      tauto

/-- The sort permutes: membership is preserved. -/
theorem mem_sortByScoreDesc {y : Result} :
    ∀ {l : List Result}, y ∈ sortByScoreDesc l ↔ y ∈ l := by
  intro l
  induction l with
  | nil => simp [sortByScoreDesc]
  | cons x xs ih =>
    rw [show sortByScoreDesc (x :: xs) = insertByScore x (sortByScoreDesc xs) from rfl,
      mem_insertByScore, ih, List.mem_cons]

/-- One insertion step preserves the length plus one. -/
theorem length_insertByScore (x : Result) :
    ∀ (l : List Result), (insertByScore x l).length = l.length + 1 := by
  intro l
  induction l with
  | nil => simp [insertByScore]
  | cons z zs ih =>
    simp only [insertByScore]
    split
    · simp
    · simp [ih]

/-- The sort preserves the length. -/
theorem length_sortByScoreDesc :
    ∀ (l : List Result), (sortByScoreDesc l).length = l.length := by
  intro l
  induction l with
  | nil => rfl
  | cons x xs ih =>
    rw [show sortByScoreDesc (x :: xs) = insertByScore x (sortByScoreDesc xs) from rfl,
      length_insertByScore, ih, List.length_cons]

/-- Stability of one insertion step, phrased on the subsequence of a fixed
score: inserting an element of score `s` puts it in front of no
previously-present element of score `s` (all elements it jumps over have a
strictly greater score), and inserting an element of another score leaves
the score-`s` subsequence unchanged. -/
theorem filter_insertByScore (s : Int) (x : Result) :
    ∀ (l : List Result),
      (insertByScore x l).filter (fun r => r.relevance_score == s)
        = if x.relevance_score == s
            then x :: l.filter (fun r => r.relevance_score == s)
            else l.filter (fun r => r.relevance_score == s) := by
  intro l
  induction l with
  | nil =>
    simp only [insertByScore]
    rw [List.filter_cons]
  | cons y ys ih =>
    simp only [insertByScore]
    by_cases hc : y.relevance_score ≤ x.relevance_score
    · rw [if_pos hc, List.filter_cons]
    · rw [if_neg hc, List.filter_cons, ih, List.filter_cons]
      by_cases hx : (x.relevance_score == s) = true
      · by_cases hy : (y.relevance_score == s) = true
        · exfalso
          have hx' : x.relevance_score = s := by simpa using hx
          have hy' : y.relevance_score = s := by simpa using hy
          omega
        · simp [hx, hy]
      · simp [hx]

/-- Stability of the sort: the subsequence of any fixed score is unchanged
by `sortByScoreDesc`. -/
theorem filter_sortByScoreDesc (s : Int) :
    ∀ (l : List Result),
      (sortByScoreDesc l).filter (fun r => r.relevance_score == s)
        = l.filter (fun r => r.relevance_score == s) := by
  intro l
  induction l with
  | nil => rfl
  | cons x xs ih =>
    rw [show sortByScoreDesc (x :: xs) = insertByScore x (sortByScoreDesc xs) from rfl,
      filter_insertByScore, ih, List.filter_cons]

/-- A member of a `take` is a member. -/
theorem mem_of_mem_takeRes {r : Result} {l : List Result} {n : Nat}
    (h : r ∈ l.take n) : r ∈ l := by
  have h2 := List.mem_append_left (l.drop n) h
  rwa [List.take_append_drop] at h2

/-- Filtering commutes with `take` up to a list extension: the filtered
`take` is an initial segment of the filtered list. -/
theorem filter_take_extends (p : Result → Bool) (l : List Result) (n : Nat) :
    ∃ t, (l.take n).filter p ++ t = l.filter p :=
  ⟨(l.drop n).filter p, by rw [← List.filter_append, List.take_append_drop]⟩

/-- What a successful `filter_advisory` guarantees: the gate admitted the
advisory, the result carries the advisory itself, at least one keyword or
pattern matched, and `matched_categories` is what the category loop
produced over the searchable text. -/
theorem filterAdvisory_spec {flt : AdvisoryFilter} {a : Advisory} {r : Result}
    (h : filterAdvisory flt a = some r) :
    checkSeverity flt a = true ∧ r.advisory = a
      ∧ (r.matchResult.matched_keywords ≠ [] ∨ r.matchResult.matched_patterns ≠ [])
      ∧ r.matchResult.matched_categories = (matchCategories flt (searchableText a)).2 := by
  unfold filterAdvisory at h
  cases hcs : checkSeverity flt a with
  | false => rw [hcs] at h; simp at h
  | true =>
    rw [hcs] at h
    simp only [Bool.not_true, Bool.false_eq_true, if_false] at h
    by_cases he : ((matchCategories flt (searchableText a)).1.isEmpty
        && (matchRegexPatterns flt (searchableText a)).isEmpty) = true
    · rw [if_pos he] at h
      exact absurd h (by simp)
    · rw [if_neg he] at h
      have hr := (Option.some.injEq _ _).mp h
      subst hr
      refine ⟨rfl, rfl, ?_, rfl⟩
      rcases Bool.and_eq_false_iff.mp (Bool.eq_false_iff.mpr he) with h1 | h1
      · exact Or.inl (by simpa using h1)
      · exact Or.inr (by simpa using h1)

/-- The compile loop of `_compile_regex_patterns` keeps, in order, exactly
the patterns the compile oracle accepts. -/
theorem compileLoop_eq (compile : String → Option (String → Bool)) :
    ∀ (l : List PatternConfig) (acc : List PatternInfo),
      l.foldl (fun patterns pc =>
          match compile pc.pattern with
          | some s => patterns ++ [⟨s, pc.description.getD "", pc.pattern⟩]
          | none => patterns) acc
        = acc ++ l.filterMap (fun pc => (compile pc.pattern).map
            (fun s => PatternInfo.mk s (pc.description.getD "") pc.pattern)) := by
  intro l
  induction l with
  | nil => intro acc; simp
  | cons pc pcs ih =>
    intro acc
    simp only [List.foldl_cons, List.filterMap_cons]
    cases hc : compile pc.pattern with
    | none => simp [hc, ih]
    | some sf => simp [hc, ih]

/-! Claims. -/

/-- Claim C1: with severity filtering enabled, `_check_severity` rejects an
advisory iff its CVSS score is below `min_cvss`, or its severity string is
non-empty and its lower-cased value is not among the lower-cased allowed
levels; in particular an advisory with an empty severity string can only be
rejected by the CVSS check. -/
theorem checkSeverity_false_iff (flt : AdvisoryFilter) (a : Advisory)
    (h : flt.config.severity.enabled = true) :
    (checkSeverity flt a = false ↔
      (a.cvssScore < flt.config.severity.min_cvss.getD 0
        ∨ (a.severity ≠ ""
            ∧ lowerStr a.severity ∉
                (flt.config.severity.levels.getD
                  ["critical", "high", "medium", "low"]).map lowerStr)))
    ∧ (a.severity = "" →
        (checkSeverity flt a = false ↔
          a.cvssScore < flt.config.severity.min_cvss.getD 0)) := by
  have main : checkSeverity flt a = false ↔
      (a.cvssScore < flt.config.severity.min_cvss.getD 0
        ∨ (a.severity ≠ ""
            ∧ lowerStr a.severity ∉
                (flt.config.severity.levels.getD
                  ["critical", "high", "medium", "low"]).map lowerStr)) := by
    unfold checkSeverity
    simp only [h, Bool.not_true, Bool.false_eq_true, if_false]
    by_cases hc : a.cvssScore < flt.config.severity.min_cvss.getD 0
    · simp [hc]
    · simp only [if_neg hc]
      by_cases hne : lowerStr a.severity = ""
      · have hs : a.severity = "" := lowerStr_eq_empty.mp hne
        simp [hne, hc, hs]
        intro hx
        exact absurd rfl hx
      · have hs : a.severity ≠ "" := fun hh => hne (by rw [hh]; rfl)
        by_cases hmem : lowerStr a.severity ∈
            (flt.config.severity.levels.getD
              ["critical", "high", "medium", "low"]).map lowerStr
        · simp [hne, hmem, hc]
        · simp [hne, hmem, hc, hs]
  refine ⟨main, fun hs => ?_⟩
  rw [main]
  simp [hs]

/-- Claim C4: with ranking enabled, the relevance score is the weighted sum
of the total matched-keyword count, the matched-category count and the
matched-pattern count, plus a mutually exclusive severity bonus
(critical/high/medium, zero otherwise). -/
theorem relevance_score_formula (flt : AdvisoryFilter) (m : Matches) (a : Advisory)
    (h : flt.config.ranking.enabled = true) :
    calculateRelevanceScore flt m a =
      ((m.matched_keywords.map (fun kv => kv.2.length)).sum : Int)
          * flt.config.ranking.weights.exact_match.getD 10
        + (m.matched_categories.length : Int)
          * flt.config.ranking.weights.category_match.getD 5
        + (m.matched_patterns.length : Int)
          * flt.config.ranking.weights.regex_match.getD 7
        + (if lowerStr a.severity = "critical"
            then flt.config.ranking.weights.severity_critical.getD 15
          else if lowerStr a.severity = "high"
            then flt.config.ranking.weights.severity_high.getD 10
          else if lowerStr a.severity = "medium"
            then flt.config.ranking.weights.severity_medium.getD 5
          else 0) := by
  unfold calculateRelevanceScore
  simp only [h, Bool.not_true, Bool.false_eq_true, if_false]
  split_ifs <;> (push_cast; simp only [List.map_map, Function.comp_def]; ring)

/-- Claim C5: every result in the output of `filter_advisories` passed the
severity gate and has at least one keyword or pattern match. -/
theorem output_results_gated_and_matched (flt : AdvisoryFilter) (advs : List Advisory)
    (r : Result) (h : r ∈ filterAdvisories flt advs) :
    checkSeverity flt r.advisory = true
      ∧ (r.matchResult.matched_keywords ≠ [] ∨ r.matchResult.matched_patterns ≠ []) := by
  have hmem : r ∈ collectResults flt advs := by
    unfold filterAdvisories pySliceTo at h
    split at h <;> exact mem_sortByScoreDesc.mp (mem_of_mem_takeRes h)
  rw [collectResults_eq] at hmem
  obtain ⟨a, _, hfa⟩ := List.mem_filterMap.mp hmem
  obtain ⟨h1, h2, h3, _⟩ := filterAdvisory_spec hfa
  exact ⟨by rw [h2]; exact h1, h3⟩

/-- Claim C6: the final sort is stable: for every score `s`, the output's
subsequence of score-`s` results is an initial segment of the score-`s`
subsequence of the collected results, which are in input-batch order
(`filterMap` over the input). -/
theorem sort_stable_equal_scores (flt : AdvisoryFilter) (advs : List Advisory) (s : Int) :
    (filterAdvisories flt advs).filter (fun r => r.relevance_score == s)
      <+: (advs.filterMap (filterAdvisory flt)).filter (fun r => r.relevance_score == s) := by
  unfold filterAdvisories pySliceTo
  rw [collectResults_eq]
  set L := advs.filterMap (filterAdvisory flt) with hL
  split
  · obtain ⟨t, ht⟩ :=
      filter_take_extends (fun r => r.relevance_score == s) (sortByScoreDesc L) _
    rw [filter_sortByScoreDesc] at ht
    exact ⟨t, ht⟩
  · obtain ⟨t, ht⟩ :=
      filter_take_extends (fun r => r.relevance_score == s) (sortByScoreDesc L) _
    rw [filter_sortByScoreDesc] at ht
    exact ⟨t, ht⟩

/-- Claim C7 (amended): for a configured non-negative `max_results = m` the
output has at most `m` results, `m = 0` yields the empty list, and an `m`
at least the collected count yields every collected result (in sorted
order).  (A negative `max_results` instead drops the last `-m` results,
Python slice semantics — see the counterexample.) -/
theorem max_results_truncation (flt : AdvisoryFilter) (advs : List Advisory) (m : Int)
    (hm : flt.config.ranking.max_results = some m) :
    (0 ≤ m → ((filterAdvisories flt advs).length : Int) ≤ m)
      ∧ (m = 0 → filterAdvisories flt advs = [])
      ∧ (((collectResults flt advs).length : Int) ≤ m →
          filterAdvisories flt advs = sortByScoreDesc (collectResults flt advs)) := by
  unfold filterAdvisories pySliceTo
  rw [hm]
  simp only [Option.getD_some]
  refine ⟨?_, ?_, ?_⟩
  · intro h0
    rw [if_pos h0]
    have hle : ((sortByScoreDesc (collectResults flt advs)).take m.toNat).length ≤ m.toNat :=
      List.length_take_le _ _
    omega
  · intro h0
    subst h0
    rw [if_pos le_rfl]
    simp
  · intro hlen
    have h0 : (0 : Int) ≤ m := le_trans (Int.ofNat_nonneg _) hlen
    rw [if_pos h0]
    apply List.take_of_length_le
    rw [length_sortByScoreDesc]
    omega

/-- Claim C8 (amended): `matched_categories` lists the display names of the
matching categories in configuration iteration order — a sublist of the
configuration's display-name sequence, each matching category contributing
its name exactly once — and its entries are pairwise distinct whenever
distinct categories carry distinct display names (two categories sharing a
display name make it repeat; see the counterexample). -/
theorem matched_categories_sublist_nodup (flt : AdvisoryFilter) (a : Advisory) (r : Result)
    (h : filterAdvisory flt a = some r) :
    List.Sublist r.matchResult.matched_categories
        (flt.config.categories.map (fun cat => cat.2.name.getD cat.1))
      ∧ ((flt.config.categories.map (fun cat => cat.2.name.getD cat.1)).Nodup →
          r.matchResult.matched_categories.Nodup) := by
  have h4 := (filterAdvisory_spec h).2.2.2
  have hsub : List.Sublist r.matchResult.matched_categories
      (flt.config.categories.map (fun cat => cat.2.name.getD cat.1)) := by
    rw [h4]
    unfold matchCategories
    rw [categoryLoop_snd]
    simp only [List.nil_append]
    exact List.Sublist.map _ (List.filter_sublist _)
  exact ⟨hsub, fun hn => hn.sublist hsub⟩

/-- Claim C9: initialization keeps exactly the patterns the compile oracle
accepts, in order, each carrying its description (defaulted to the empty
string) and original source string; a failing pattern is skipped locally
and, with `regex_patterns.enabled` false, no pattern is held at all. -/
theorem compile_patterns_skip_invalid (compile : String → Option (String → Bool))
    (cfg : Config) :
    compileRegexPatterns compile cfg =
      if cfg.regex_patterns.enabled then
        cfg.regex_patterns.patterns.filterMap (fun pc => (compile pc.pattern).map
          (fun s => PatternInfo.mk s (pc.description.getD "") pc.pattern))
      else [] := by
  unfold compileRegexPatterns
  cases he : cfg.regex_patterns.enabled with
  | false => simp
  | true =>
    simp only [he, Bool.not_true, Bool.false_eq_true, if_false, if_true]
    exact compileLoop_eq compile cfg.regex_patterns.patterns []

/-- Claim C10: a successful `filter_advisory` returns the input advisory
record itself, unmodified, in the `advisory` field of its result. -/
theorem filter_preserves_advisory (flt : AdvisoryFilter) (a : Advisory) (r : Result)
    (h : filterAdvisory flt a = some r) : r.advisory = a :=
  (filterAdvisory_spec h).2.1

/-- Claim C2 is false on the code: the searchable text of `a2` contains
`uses log4j2-core`, yet the keyword `log4j` is not reported as matched —
`log4j` is purely alphanumeric, so `_match_keywords` uses word-boundary
matching, and in `log4j2-core` the occurrence is followed by the word
character `2`. -/
theorem log4j_substring_claim_false :
    substrContains (lowerStr (searchableText a2)) "uses log4j2-core" = true
      ∧ "log4j" ∉ matchKeywords flt2 (searchableText a2) "logging" := by
  constructor
  · decide
  · decide

/-- Claim C2 (amended): a keyword made only of word characters, like
`log4j`, is matched with word-boundary semantics — it matches a text
exactly when it occurs there as a whole token, so it does not match inside
`log4j2-core`; only keywords containing a non-word character, like
`apache-struts`, are matched by plain substring containment and hence
match inside larger tokens. -/
theorem log4j_word_boundary_behavior :
    (∀ text : String,
        "log4j" ∈ matchKeywords flt2 text "logging"
          ↔ hasWordBoundaryMatch "log4j" (lowerStr text) = true)
      ∧ matchKeywords flt2 (searchableText a2) "logging" = []
      ∧ matchKeywords flt2 "uses log4j for logging" "logging" = ["log4j"]
      ∧ isPureWord "apache-struts" = false
      ∧ matchKeywords flt2 "runs apache-struts2-core" "framework" = ["apache-struts"] := by
  refine ⟨?_, by decide, by decide, by decide, by decide⟩
  intro text
  rw [matchKeywords_eq_filter]
  have hl : lookupD flt2.keywords "logging" [] = ["log4j"] := by decide
  have hp : isPureWord "log4j" = true := by decide
  rw [hl]
  simp [List.mem_filter, keywordMatches, hp]

/-- Claim C3 is false on the code: the text `abc` is non-empty, yet the
keyword of `cfg3` that normalizes to the empty string is reported as
matched — in Python the empty string is a substring of every string. -/
theorem empty_keyword_matches_nonempty_text :
    ("abc" : String) ≠ "" ∧ matchKeywords flt3 "abc" "c" = [""] := by
  constructor
  · decide
  · decide

/-- Claim C3 (amended): a keyword that is empty after normalization falls
into the substring branch of `_match_keywords` and the empty string is
contained in every text, so such a keyword is always reported as matched
for its category — on every text, empty or not. -/
theorem empty_keyword_always_matches (flt : AdvisoryFilter) (cid text : String)
    (h : "" ∈ lookupD flt.keywords cid []) : "" ∈ matchKeywords flt text cid := by
  rw [matchKeywords_eq_filter]
  refine List.mem_filter.mpr ⟨h, ?_⟩
  have hp : isPureWord "" = false := rfl
  simp only [keywordMatches, hp, Bool.false_eq_true, if_false]
  exact substrContains_empty (lowerStr text)

/-- Claim C7 is false as stated for a negative configured `max_results`:
with `max_results = -1` and two collected results, Python's slice keeps one
result, not `max(0, -1) = 0`. -/
theorem negative_max_results_violates_cap :
    flt7.config.ranking.max_results = some (-1)
      ∧ ¬ (((filterAdvisories flt7 advs7).length : Int) ≤ max 0 (-1)) := by
  constructor
  · rfl
  · decide

/-- Claim C8 is false as stated: two distinct categories configured with
the same display name `Web` both match `a8`, so `matched_categories` lists
`Web` twice — the recorded names are not pairwise distinct. -/
theorem duplicate_display_names_repeat :
    (filterAdvisory flt8 a8).map (fun r => r.matchResult.matched_categories)
        = some ["Web", "Web"]
      ∧ ¬ (["Web", "Web"] : List String).Nodup := by
  constructor
  · decide
  · decide

/-! Witnesses. -/

/-- Witness for C1: `flt1` has severity filtering enabled and rejects `a1`,
whose severity `banana` is outside the default allowed levels. -/
theorem checkSeverity_false_iff_witness : checkSeverity flt1 a1 = false :=
  ((checkSeverity_false_iff flt1 a1 rfl).1).mpr (Or.inr ⟨by decide, by decide⟩)

/-- Witness for C3 (amended): the normalized keyword set of category `c` of
`flt3` contains the empty keyword, which matches the text `abc`. -/
theorem empty_keyword_always_matches_witness : "" ∈ matchKeywords flt3 "abc" "c" :=
  empty_keyword_always_matches flt3 "c" "abc" (by decide)

/-- Witness for C4: the spec's example — severity `critical`, one matched
keyword in one category, no patterns, default weights — scores
10 + 5 + 15 = 30. -/
theorem relevance_score_formula_witness : calculateRelevanceScore flt1 m5 a5 = 30 := by
  rw [relevance_score_formula flt1 m5 a5 rfl]
  decide

/-- Witness for C5: the result `r5` is in the output of the pipeline on
`[a5]` and satisfies the guarantees. -/
theorem output_results_gated_and_matched_witness :
    checkSeverity flt5 r5.advisory = true
      ∧ (r5.matchResult.matched_keywords ≠ [] ∨ r5.matchResult.matched_patterns ≠ []) :=
  output_results_gated_and_matched flt5 [a5] r5 (by decide)

/-- Witness for C7 (amended): with `max_results = 3` the output on `[a5]`
has at most 3 results. -/
theorem max_results_truncation_witness :
    (0 : Int) ≤ 3 ∧ ((filterAdvisories flt5c [a5]).length : Int) ≤ 3 :=
  ⟨by decide, (max_results_truncation flt5c [a5] 3 rfl).1 (by decide)⟩

/-- Witness for C8 (amended): on `flt5` and `a5` the matched categories are
a sublist of the configured display names, which are distinct, so they are
distinct. -/
theorem matched_categories_sublist_nodup_witness :
    List.Sublist r5.matchResult.matched_categories
        (flt5.config.categories.map (fun cat => cat.2.name.getD cat.1))
      ∧ ((flt5.config.categories.map (fun cat => cat.2.name.getD cat.1)).Nodup →
          r5.matchResult.matched_categories.Nodup) :=
  matched_categories_sublist_nodup flt5 a5 r5 (by decide)

/-- Witness for C10: `filter_advisory` on `a5` returns a result whose
`advisory` field is `a5` itself. -/
theorem filter_preserves_advisory_witness : r5.advisory = a5 :=
  filter_preserves_advisory flt5 a5 r5 (by decide)
